import Mathlib

/-!
Shallow embedding of `src/download_archive.py` (GHArchive parallel downloader).

Time instants are modelled as natural numbers of seconds (the Python naive
`datetime` is linearly ordered and hour arithmetic is uniform, so seconds
since an epoch are a faithful carrier; truncation to the hour is `t / 3600 *
3600`).  Network behaviour is an oracle `net : Nat → AttemptOutcome` giving,
for each attempt index, what `requests.get` / streaming did on that attempt.
Filesystem and statistics effects are threaded explicitly; the backoff
sleeps and GET requests of one `download_file` invocation are returned as an
event trace.
-/

set_option maxHeartbeats 1000000
set_option maxRecDepth 4000

/-- Gregorian date (year, month, day) from days since 1970-01-01, mirroring
what `datetime.strftime('%Y-%m-%d')` renders for the instant. -/
def civilFromDays (days : Nat) : Nat × Nat × Nat :=
  let z := days + 719468
  let era := z / 146097
  let doe := z % 146097
  let yoe := (doe - doe / 1460 + doe / 36524 - doe / 146096) / 365
  let y := yoe + era * 400
  let doy := doe - (365 * yoe + yoe / 4 - yoe / 100)
  let mp := (5 * doy + 2) / 153
  let d := doy - (153 * mp + 2) / 5 + 1
  let m := if mp < 10 then mp + 3 else mp - 9
  (if m ≤ 2 then y + 1 else y, m, d)

/-- Zero padding of `%m` / `%d` in `strftime`. -/
def pad2 (n : Nat) : String :=
  if n < 10 then "0" ++ toString n else toString n

/-- Zero padding of `%Y` in `strftime`. -/
def pad4 (n : Nat) : String :=
  if n < 10 then "000" ++ toString n
  else if n < 100 then "00" ++ toString n
  else if n < 1000 then "0" ++ toString n
  else toString n

/-- `current.strftime('%Y-%m-%d')` for an instant of `t` seconds. -/
def dateString (t : Nat) : String :=
  let c := civilFromDays (t / 86400)
  pad4 c.1 ++ "-" ++ pad2 c.2.1 ++ "-" ++ pad2 c.2.2

/-- `current.hour` for an instant of `t` seconds. -/
def hourOfDay (t : Nat) : Nat := t / 3600 % 24

/-- The f-string building one GHArchive URL in `generate_urls`
(`https://data.gharchive.org/{date}-{hour}.json.gz`, hour not zero padded). -/
def archive_url (t : Nat) : String :=
  "https://data.gharchive.org/" ++ dateString t ++ "-" ++ toString (hourOfDay t) ++ ".json.gz"

/-- `start_dt.replace(minute=0, second=0, microsecond=0)`. -/
def truncHour (t : Nat) : Nat := t / 3600 * 3600

/-- The `while current <= end_dt` loop of `generate_urls`, stepping by
`timedelta(hours=1)`.  The loop terminates because `current` strictly grows;
`fuel` is an upper bound on the remaining iterations supplied by
`generate_urls` below, never reached before the guard fails. -/
def generate_urls_go (end_dt : Nat) : Nat → Nat → List (String × Nat)
  | _, 0 => []
  | current, fuel + 1 =>
    if current ≤ end_dt then
      (archive_url current, current) :: generate_urls_go end_dt (current + 3600) fuel
    else []

/-- `generate_urls(start_dt, end_dt)`: all GHArchive URLs between the two
instants, one per hour, starting from the truncated start. -/
def generate_urls (start_dt end_dt : Nat) : List (String × Nat) :=
  generate_urls_go end_dt (truncHour start_dt) (end_dt / 3600 + 1)

/-- `DownloadStats` state: cumulative byte count plus the two
`deque(maxlen=10)` sample windows. -/
structure DownloadStats where
  bytes_downloaded : Nat
  recent_bytes : List Nat
  recent_times : List ℚ
deriving DecidableEq

/-- `deque(maxlen=cap)` append: push right, evict from the left at capacity. -/
def dequeAppend {α : Type} (cap : Nat) (xs : List α) (x : α) : List α :=
  let ys := xs ++ [x]
  ys.drop (ys.length - cap)

/-- Freshly constructed `DownloadStats()` (zero bytes, empty windows). -/
def DownloadStats.init : DownloadStats := ⟨0, [], []⟩

/-- `DownloadStats.add_bytes`: add to the total and append a sample; `now`
stands for the `time.time()` reading taken inside the lock. -/
def DownloadStats.add_bytes (s : DownloadStats) (bytes_count : Nat) (now : ℚ) : DownloadStats :=
  { bytes_downloaded := s.bytes_downloaded + bytes_count
    recent_bytes := dequeAppend 10 s.recent_bytes bytes_count
    recent_times := dequeAppend 10 s.recent_times now }

/-- `DownloadStats.get_speed`: current download speed in MiB/s computed from
the rolling window (`recent_times[-1] - recent_times[0]`). -/
def DownloadStats.get_speed (s : DownloadStats) : ℚ :=
  if s.recent_times.length < 2 then 0
  else
    let total_bytes : ℚ := (s.recent_bytes.sum : ℚ)
    let time_span : ℚ := s.recent_times.getLastD 0 - s.recent_times.headD 0
    if 0 < time_span then total_bytes / time_span / (1024 * 1024) else 0

/-- `DownloadStats.get_total_downloaded`: cumulative total in MiB. -/
def DownloadStats.get_total_downloaded (s : DownloadStats) : ℚ :=
  (s.bytes_downloaded : ℚ) / (1024 * 1024)

/-- Filesystem state: which directories and files exist.  Only existence is
observable by the program (`os.path.exists`, `os.makedirs`, `open(..,'wb')`). -/
structure FS where
  dirs : List String
  files : List String
deriving DecidableEq

/-- `open(path, 'wb')` / writing creates the file (idempotent on the set). -/
def FS.addFile (fs : FS) (path : String) : FS :=
  if path ∈ fs.files then fs else { fs with files := fs.files ++ [path] }

/-- `os.makedirs(path, exist_ok=True)`. -/
def FS.addDir (fs : FS) (path : String) : FS :=
  if path ∈ fs.dirs then fs else { fs with dirs := fs.dirs ++ [path] }

/-- The tuple `(url, success, message, size)` returned by `download_file`. -/
structure DownloadResult where
  url : String
  success : Bool
  message : String
  bytesTransferred : Nat
deriving DecidableEq

/-- Observable events of one `download_file` invocation: a `requests.get`
issued, or a `time.sleep` of the given number of seconds. -/
inductive Ev where
  | request : String → Ev
  | sleep : Nat → Ev
deriving DecidableEq

/-- What one attempt of the retry loop did, as decided by the environment:
`noResponse e`: `requests.get` or `raise_for_status` raised a
`RequestException` `e` (no 2xx response was obtained);
`complete chunks`: a 2xx response whose body streamed as `chunks`
(chunk byte sizes) and was written in full;
`transportFail chunks e`: 2xx obtained, `chunks` streamed and written, then a
`RequestException` `e` was raised by `iter_content`;
`diskFail chunks e`: 2xx obtained, `chunks` written and counted, then an
exception `e` that is not a `RequestException` was raised (e.g. a disk write
failure; a failure at `makedirs`/`open` is the `chunks = []` case). -/
inductive AttemptOutcome where
  | noResponse : String → AttemptOutcome
  | complete : List Nat → AttemptOutcome
  | transportFail : List Nat → String → AttemptOutcome
  | diskFail : List Nat → String → AttemptOutcome
deriving DecidableEq

/-- Mutable context threaded through a run: the filesystem, the shared
`DownloadStats`, and a logical clock feeding `time.time()` readings for
`add_bytes` (monotonically increasing). -/
structure FetchEffects where
  fs : FS
  stats : DownloadStats
  tick : Nat

/-- Write one non-empty chunk: `f.write(chunk)` then `stats.add_bytes(len)`. -/
def writeChunk (eff : FetchEffects) (c : Nat) : FetchEffects :=
  { eff with stats := eff.stats.add_bytes c (eff.tick : ℚ), tick := eff.tick + 1 }

/-- The `for chunk in response.iter_content(...)` loop: skip empty chunks,
write and count the rest, accumulating `downloaded_size`. -/
def writeChunks : FetchEffects → List Nat → FetchEffects × Nat
  | eff, [] => (eff, 0)
  | eff, c :: cs =>
    if c ≠ 0 then
      let p := writeChunks (writeChunk eff c) cs
      (p.1, c + p.2)
    else writeChunks eff cs

/-- `os.makedirs(output_path, exist_ok=True)` followed by `open(filepath,
'wb')` and the chunk loop. -/
def streamToDisk (eff : FetchEffects) (output_path filepath : String) (chunks : List Nat) :
    FetchEffects × Nat :=
  writeChunks { eff with fs := (eff.fs.addDir output_path).addFile filepath } chunks

/-- `f"Failed after {max_retries} attempts: {filename} - {str(e)}"`. -/
def failMsg (max_retries : Nat) (filename e : String) : String :=
  "Failed after " ++ toString max_retries ++ " attempts: " ++ filename ++ " - " ++ e

/-- `f"Error downloading {filename}: {str(e)}"`. -/
def errMsg (filename e : String) : String :=
  "Error downloading " ++ filename ++ ": " ++ e

/-- The `for attempt in range(max_retries)` retry loop of `download_file`.
`attempt` is the current index, `fuel` the number of remaining iterations
(`download_file` starts it at `max_retries`, so `attempt + fuel =
max_retries` throughout).  When the loop body is never entered (only
possible with `max_retries = 0`) the Python function falls off the end and
returns `None`, modelled by `none`.  The third component is the trace of
requests and backoff sleeps, in order. -/
def download_attempts (net : Nat → AttemptOutcome) (url filename filepath output_path : String)
    (max_retries : Nat) : Nat → Nat → FetchEffects → Option DownloadResult × FetchEffects × List Ev
  | _, 0, eff => (none, eff, [])
  | attempt, fuel + 1, eff =>
    match net attempt with
    | .complete chunks =>
      let p := streamToDisk eff output_path filepath chunks
      (some ⟨url, true, "Downloaded: " ++ filename, p.2⟩, p.1, [.request url])
    | .noResponse e =>
      if attempt = max_retries - 1 then
        (some ⟨url, false, failMsg max_retries filename e, 0⟩, eff, [.request url])
      else
        let p := download_attempts net url filename filepath output_path max_retries
          (attempt + 1) fuel eff
        (p.1, p.2.1, .request url :: .sleep (2 ^ attempt) :: p.2.2)
    | .transportFail chunks e =>
      let q := streamToDisk eff output_path filepath chunks
      if attempt = max_retries - 1 then
        (some ⟨url, false, failMsg max_retries filename e, 0⟩, q.1, [.request url])
      else
        let p := download_attempts net url filename filepath output_path max_retries
          (attempt + 1) fuel q.1
        (p.1, p.2.1, .request url :: .sleep (2 ^ attempt) :: p.2.2)
    | .diskFail chunks e =>
      let q := streamToDisk eff output_path filepath chunks
      (some ⟨url, false, errMsg filename e, 0⟩, q.1, [.request url])

/-- Characters after the last `/`, accumulator-style. -/
def lastSegAux : List Char → List Char → List Char
  | acc, [] => acc.reverse
  | _, '/' :: cs => lastSegAux [] cs
  | acc, c :: cs => lastSegAux (c :: acc) cs

/-- `os.path.basename(urlparse(url).path)` for the URLs this program builds:
the final `/`-separated segment. -/
def basename (url : String) : String := ⟨lastSegAux [] url.data⟩

/-- `download_file(url, output_path, stats, max_retries)`: existence
short-circuit, then the retry loop.  `os.path.join(output_path, filename)`
is `output_path ++ "/" ++ filename` for the relative paths used here. -/
def download_file (net : Nat → AttemptOutcome) (url output_path : String) (eff : FetchEffects)
    (max_retries : Nat) : Option DownloadResult × FetchEffects × List Ev :=
  let filename := basename url
  let filepath := output_path ++ "/" ++ filename
  if filepath ∈ eff.fs.files then
    (some ⟨url, true, "Already exists: " ++ filename, 0⟩, eff, [])
  else
    download_attempts net url filename filepath output_path max_retries 0 max_retries eff

/-- The final tallies printed by `download_archives`. -/
structure Summary where
  totalItems : Nat
  successful : Nat
  failed : Nat
  total_downloaded : Nat
deriving DecidableEq

/-- One `download_file` per submitted URL (the pool is drained completely;
the tallies and the stats totals are order independent, so the sequential
fold is a faithful model of the drained pool).  `net idx` is the network
oracle of the item at position `idx`; `max_retries` keeps its default 3. -/
def run_items (net : Nat → Nat → AttemptOutcome) (output_path : String) :
    List String → Nat → FetchEffects → List DownloadResult × FetchEffects
  | [], _, eff => ([], eff)
  | url :: rest, idx, eff =>
    let p := download_file (net idx) url output_path eff 3
    let q := run_items net output_path rest (idx + 1) p.2.1
    (p.1.toList ++ q.1, q.2)

/-- `download_archives(start_dt, end_dt, output_path, ...)`: generate the
URLs, bail out on an empty list, otherwise construct a fresh
`DownloadStats`, run every item, and tally successes and failures.  Returns
the summary together with all collected `DownloadResult`s (the values the
`as_completed` loop consumed), and the final effects. -/
def download_archives (net : Nat → Nat → AttemptOutcome) (start_dt end_dt : Nat)
    (output_path : String) (fs0 : FS) :
    Option (Summary × List DownloadResult) × FetchEffects :=
  let urls := generate_urls start_dt end_dt
  if urls.isEmpty then (none, ⟨fs0, .init, 0⟩)
  else
    let p := run_items net output_path (urls.map Prod.fst) 0 ⟨fs0, .init, 0⟩
    (some (⟨urls.length, p.1.countP (·.success), p.1.countP (fun r => !r.success),
      p.2.stats.bytes_downloaded⟩, p.1), p.2)

/-- The outcomes the `except requests.exceptions.RequestException` handler
catches: a transport error, whether before the status check or mid-stream. -/
def isTransient : AttemptOutcome → Bool
  | .noResponse _ => true
  | .transportFail _ _ => true
  | _ => false

/-- The effects one retried (transient) attempt leaves behind before the
loop moves on: nothing for `noResponse`, the partially streamed chunks for a
mid-stream transport failure. -/
def transientEffect (o : AttemptOutcome) (output_path filepath : String)
    (eff : FetchEffects) : FetchEffects :=
  match o with
  | .transportFail chunks _ => (streamToDisk eff output_path filepath chunks).1
  | _ => eff

/-- Accumulated effects of the `k` transient attempts starting at index
`attempt`. -/
def effAfter (net : Nat → AttemptOutcome) (output_path filepath : String) :
    Nat → Nat → FetchEffects → FetchEffects
  | _, 0, eff => eff
  | attempt, k + 1, eff =>
    effAfter net output_path filepath (attempt + 1) k
      (transientEffect (net attempt) output_path filepath eff)

/-- The request/sleep trace of `k` consecutive retried attempts starting at
index 0: a GET, then a backoff of `2 ^ i` seconds, for each `i < k`. -/
def retrySchedule (url : String) (k : Nat) : List Ev :=
  (List.range k).flatMap fun i => [Ev.request url, Ev.sleep (2 ^ i)]

/- ### Basic lemmas about the effect primitives -/

theorem FS.mem_addFile_self (fs : FS) (p : String) : p ∈ (fs.addFile p).files := by
  unfold FS.addFile
  split
  · assumption
  · simp

theorem FS.mem_addFile_of_mem (fs : FS) (p x : String) (h : x ∈ fs.files) :
    x ∈ (fs.addFile p).files := by
  unfold FS.addFile
  split
  · exact h
  · simp [h]

theorem FS.addDir_files (fs : FS) (p : String) : (fs.addDir p).files = fs.files := by
  unfold FS.addDir
  split <;> rfl

theorem writeChunks_fs (cs : List Nat) : ∀ eff : FetchEffects,
    (writeChunks eff cs).1.fs = eff.fs := by
  induction cs with
  | nil => intro eff; rfl
  | cons c cs ih =>
    intro eff
    unfold writeChunks
    split
    · exact ih (writeChunk eff c)
    · exact ih eff

theorem writeChunks_bytes (cs : List Nat) : ∀ eff : FetchEffects,
    (writeChunks eff cs).1.stats.bytes_downloaded =
      eff.stats.bytes_downloaded + cs.sum := by
  induction cs with
  | nil => intro eff; simp [writeChunks]
  | cons c cs ih =>
    intro eff
    unfold writeChunks
    split
    · have h1 := ih (writeChunk eff c)
      have h2 : (writeChunk eff c).stats.bytes_downloaded = eff.stats.bytes_downloaded + c := rfl
      simp only [h1, h2, List.sum_cons]
      omega
    · have hc : c = 0 := by omega
      have := ih eff
      simp [this, hc]

theorem writeChunks_size (cs : List Nat) : ∀ eff : FetchEffects,
    (writeChunks eff cs).2 = cs.sum := by
  induction cs with
  | nil => intro eff; rfl
  | cons c cs ih =>
    intro eff
    unfold writeChunks
    split
    · simp [ih (writeChunk eff c)]
    · have hc : c = 0 := by omega
      simp [ih eff, hc]

theorem streamToDisk_fs (eff : FetchEffects) (p fp : String) (cs : List Nat) :
    (streamToDisk eff p fp cs).1.fs = (eff.fs.addDir p).addFile fp := by
  unfold streamToDisk
  rw [writeChunks_fs]

theorem streamToDisk_bytes (eff : FetchEffects) (p fp : String) (cs : List Nat) :
    (streamToDisk eff p fp cs).1.stats.bytes_downloaded =
      eff.stats.bytes_downloaded + cs.sum := by
  unfold streamToDisk
  rw [writeChunks_bytes]

theorem streamToDisk_size (eff : FetchEffects) (p fp : String) (cs : List Nat) :
    (streamToDisk eff p fp cs).2 = cs.sum := by
  unfold streamToDisk
  rw [writeChunks_size]

theorem streamToDisk_mem_filepath (eff : FetchEffects) (p fp : String) (cs : List Nat) :
    fp ∈ (streamToDisk eff p fp cs).1.fs.files := by
  rw [streamToDisk_fs]
  exact FS.mem_addFile_self _ fp

theorem streamToDisk_mem_of_mem (eff : FetchEffects) (p fp x : String) (cs : List Nat)
    (h : x ∈ eff.fs.files) : x ∈ (streamToDisk eff p fp cs).1.fs.files := by
  rw [streamToDisk_fs]
  exact FS.mem_addFile_of_mem _ fp x (by rw [FS.addDir_files]; exact h)

theorem countP_add_countP_not (p : α → Bool) (l : List α) :
    l.countP p + l.countP (fun a => !p a) = l.length := by
  induction l with
  | nil => rfl
  | cons a l ih =>
    by_cases h : p a = true
    · rw [List.countP_cons_of_pos _ _ h, List.countP_cons_of_neg, List.length_cons]
      · omega
      · simp [h]
    · rw [List.countP_cons_of_neg _ _ h, List.countP_cons_of_pos, List.length_cons]
      · omega
      · simp [h]

/- ### Distinguishing the result messages by their first character -/

theorem string_append_head (c : Char) (s t : String) (h : s.data.head? = some c) :
    (s ++ t).data.head? = some c := by
  rcases s with ⟨data⟩
  cases data with
  | nil => simp at h
  | cons a l =>
    simp only [List.head?] at h
    simp only [String.data_append, List.head?, List.cons_append]
    exact h

theorem string_ne_of_head_ne (c₁ c₂ : Char) (s t : String)
    (h₁ : s.data.head? = some c₁) (h₂ : t.data.head? = some c₂) (hne : c₁ ≠ c₂) :
    s ≠ t := by
  intro h
  rw [h, h₂] at h₁
  exact hne (by injection h₁ with h'; exact h'.symm)

theorem errMsg_head (fn e : String) : (errMsg fn e).data.head? = some 'E' := by
  unfold errMsg
  exact string_append_head 'E' _ e
    (string_append_head 'E' _ ": " (string_append_head 'E' "Error downloading " fn rfl))

theorem failMsg_head (m : Nat) (fn e : String) : (failMsg m fn e).data.head? = some 'F' := by
  unfold failMsg
  exact string_append_head 'F' _ e (string_append_head 'F' _ " - "
    (string_append_head 'F' _ fn
      (string_append_head 'F' _ " attempts: "
        (string_append_head 'F' "Failed after " (toString m) rfl))))

theorem errMsg_ne_failMsg (fn e : String) (m : Nat) (g h' : String) :
    errMsg fn e ≠ failMsg m g h' :=
  string_ne_of_head_ne 'E' 'F' _ _ (errMsg_head fn e) (failMsg_head m g h') (by decide)

theorem already_ne_downloaded (f g : String) :
    "Already exists: " ++ f ≠ "Downloaded: " ++ g :=
  string_ne_of_head_ne 'A' 'D' _ _
    (string_append_head 'A' "Already exists: " f rfl)
    (string_append_head 'D' "Downloaded: " g rfl) (by decide)

/- ### Structure of `generate_urls` -/

theorem generate_urls_go_nil (e c fuel : Nat) (h : e < c) :
    generate_urls_go e c fuel = [] := by
  cases fuel with
  | zero => rfl
  | succ f =>
    unfold generate_urls_go
    rw [if_neg (by omega)]

theorem generate_urls_go_eq (e : Nat) : ∀ fuel c : Nat, c ≤ e → (e - c) / 3600 < fuel →
    generate_urls_go e c fuel =
      (List.range' c ((e - c) / 3600 + 1) 3600).map fun t => (archive_url t, t) := by
  intro fuel
  induction fuel with
  | zero => intro c _ h2; omega
  | succ f ih =>
    intro c hc hf
    unfold generate_urls_go
    rw [if_pos hc]
    by_cases hstep : c + 3600 ≤ e
    · have hk : (e - c) / 3600 = (e - (c + 3600)) / 3600 + 1 := by omega
      rw [ih (c + 3600) hstep (by omega), hk]
      conv_rhs => rw [List.range'_succ, List.map_cons]
    · have hk : (e - c) / 3600 = 0 := by omega
      rw [generate_urls_go_nil e (c + 3600) f (by omega), hk]
      rfl

theorem generate_urls_eq (s e : Nat) (h : s ≤ e) :
    generate_urls s e =
      (List.range' (truncHour s) ((e / 3600 - s / 3600) + 1) 3600).map
        fun t => (archive_url t, t) := by
  unfold generate_urls
  have h1 : truncHour s ≤ e := by unfold truncHour; omega
  have h2 : (e - truncHour s) / 3600 < e / 3600 + 1 := by unfold truncHour; omega
  rw [generate_urls_go_eq e (e / 3600 + 1) (truncHour s) h1 h2]
  have h3 : (e - truncHour s) / 3600 = e / 3600 - s / 3600 := by unfold truncHour; omega
  rw [h3]

theorem generate_urls_ne_nil (s e : Nat) (h : s ≤ e) : generate_urls s e ≠ [] := by
  rw [generate_urls_eq s e h]
  simp

/- ### One-step unfolding of the retry loop -/

theorem attempts_step_complete (net : Nat → AttemptOutcome)
    (url fn fp p : String) (m attempt fuel : Nat) (eff : FetchEffects) (cs : List Nat)
    (hA : net attempt = .complete cs) :
    download_attempts net url fn fp p m attempt (fuel + 1) eff =
      (some ⟨url, true, "Downloaded: " ++ fn, (streamToDisk eff p fp cs).2⟩,
       (streamToDisk eff p fp cs).1, [.request url]) := by
  unfold download_attempts
  rw [hA]

theorem attempts_step_noResponse_last (net : Nat → AttemptOutcome)
    (url fn fp p : String) (m attempt fuel : Nat) (eff : FetchEffects) (e : String)
    (hA : net attempt = .noResponse e) (hlast : attempt = m - 1) :
    download_attempts net url fn fp p m attempt (fuel + 1) eff =
      (some ⟨url, false, failMsg m fn e, 0⟩, eff, [.request url]) := by
  conv_lhs => unfold download_attempts
  simp only [hA, if_pos hlast]

theorem attempts_step_noResponse_retry (net : Nat → AttemptOutcome)
    (url fn fp p : String) (m attempt fuel : Nat) (eff : FetchEffects) (e : String)
    (hA : net attempt = .noResponse e) (hlast : ¬ attempt = m - 1) :
    download_attempts net url fn fp p m attempt (fuel + 1) eff =
      ((download_attempts net url fn fp p m (attempt + 1) fuel eff).1,
       (download_attempts net url fn fp p m (attempt + 1) fuel eff).2.1,
       Ev.request url :: Ev.sleep (2 ^ attempt) ::
         (download_attempts net url fn fp p m (attempt + 1) fuel eff).2.2) := by
  conv_lhs => unfold download_attempts
  simp only [hA, if_neg hlast]

theorem attempts_step_transportFail_last (net : Nat → AttemptOutcome)
    (url fn fp p : String) (m attempt fuel : Nat) (eff : FetchEffects) (cs : List Nat) (e : String)
    (hA : net attempt = .transportFail cs e) (hlast : attempt = m - 1) :
    download_attempts net url fn fp p m attempt (fuel + 1) eff =
      (some ⟨url, false, failMsg m fn e, 0⟩, (streamToDisk eff p fp cs).1, [.request url]) := by
  conv_lhs => unfold download_attempts
  simp only [hA, if_pos hlast]

theorem attempts_step_transportFail_retry (net : Nat → AttemptOutcome)
    (url fn fp p : String) (m attempt fuel : Nat) (eff : FetchEffects) (cs : List Nat) (e : String)
    (hA : net attempt = .transportFail cs e) (hlast : ¬ attempt = m - 1) :
    download_attempts net url fn fp p m attempt (fuel + 1) eff =
      ((download_attempts net url fn fp p m (attempt + 1) fuel (streamToDisk eff p fp cs).1).1,
       (download_attempts net url fn fp p m (attempt + 1) fuel (streamToDisk eff p fp cs).1).2.1,
       Ev.request url :: Ev.sleep (2 ^ attempt) ::
         (download_attempts net url fn fp p m (attempt + 1) fuel
           (streamToDisk eff p fp cs).1).2.2) := by
  conv_lhs => unfold download_attempts
  simp only [hA, if_neg hlast]

theorem attempts_step_diskFail (net : Nat → AttemptOutcome)
    (url fn fp p : String) (m attempt fuel : Nat) (eff : FetchEffects) (cs : List Nat) (e : String)
    (hA : net attempt = .diskFail cs e) :
    download_attempts net url fn fp p m attempt (fuel + 1) eff =
      (some ⟨url, false, errMsg fn e, 0⟩, (streamToDisk eff p fp cs).1, [.request url]) := by
  conv_lhs => unfold download_attempts
  simp only [hA]

/- ### Skipping a prefix of retried (transient) attempts -/

theorem download_attempts_skip (net : Nat → AttemptOutcome)
    (url fn fp p : String) (m : Nat) :
    ∀ (k attempt fuel : Nat) (eff : FetchEffects), attempt + fuel = m → k < fuel →
      (∀ i, attempt ≤ i → i < attempt + k → isTransient (net i) = true) →
      download_attempts net url fn fp p m attempt fuel eff =
        ((download_attempts net url fn fp p m (attempt + k) (fuel - k)
            (effAfter net p fp attempt k eff)).1,
         (download_attempts net url fn fp p m (attempt + k) (fuel - k)
            (effAfter net p fp attempt k eff)).2.1,
         ((List.range' attempt k).flatMap fun i => [Ev.request url, Ev.sleep (2 ^ i)]) ++
           (download_attempts net url fn fp p m (attempt + k) (fuel - k)
            (effAfter net p fp attempt k eff)).2.2) := by
  intro k
  induction k with
  | zero =>
    intro attempt fuel eff _ _ _
    simp [effAfter]
  | succ j ih =>
    intro attempt fuel eff h1 h2 h3
    obtain ⟨f, rfl⟩ : ∃ f, fuel = f + 1 := ⟨fuel - 1, by omega⟩
    have hne : ¬ (attempt = m - 1) := by omega
    have htr : isTransient (net attempt) = true := h3 attempt (le_refl _) (by omega)
    have e1 : attempt + (j + 1) = attempt + 1 + j := by omega
    have e2 : f + 1 - (j + 1) = f - j := by omega
    have h3' : ∀ i, attempt + 1 ≤ i → i < attempt + 1 + j → isTransient (net i) = true :=
      fun i hi1 hi2 => h3 i (by omega) (by omega)
    cases hA : net attempt with
    | complete cs => rw [hA] at htr; simp [isTransient] at htr
    | diskFail cs e => rw [hA] at htr; simp [isTransient] at htr
    | noResponse e =>
      rw [attempts_step_noResponse_retry net url fn fp p m attempt f eff e hA hne]
      rw [ih (attempt + 1) f eff (by omega) (by omega) h3']
      have e3 : effAfter net p fp attempt (j + 1) eff = effAfter net p fp (attempt + 1) j eff := by
        simp only [effAfter, transientEffect, hA]
      rw [e1, e2, e3, List.range'_succ]
      simp
    | transportFail cs e =>
      rw [attempts_step_transportFail_retry net url fn fp p m attempt f eff cs e hA hne]
      rw [ih (attempt + 1) f (streamToDisk eff p fp cs).1 (by omega) (by omega) h3']
      have e3 : effAfter net p fp attempt (j + 1) eff =
          effAfter net p fp (attempt + 1) j (streamToDisk eff p fp cs).1 := by
        simp only [effAfter, transientEffect, hA]
      rw [e1, e2, e3, List.range'_succ]
      simp

theorem attempts_step_zero (net : Nat → AttemptOutcome) (url fn fp p : String)
    (m attempt : Nat) (eff : FetchEffects) :
    download_attempts net url fn fp p m attempt 0 eff = (none, eff, []) := by
  conv_lhs => unfold download_attempts

theorem attempts_run_complete (net : Nat → AttemptOutcome) (url fn fp p : String)
    (m k : Nat) (cs : List Nat) (eff : FetchEffects)
    (hk : k < m) (hpre : ∀ i < k, isTransient (net i) = true)
    (hA : net k = .complete cs) :
    download_attempts net url fn fp p m 0 m eff =
      (some ⟨url, true, "Downloaded: " ++ fn, cs.sum⟩,
       (streamToDisk (effAfter net p fp 0 k eff) p fp cs).1,
       retrySchedule url k ++ [.request url]) := by
  have hs := download_attempts_skip net url fn fp p m k 0 m eff (by omega) hk
    (fun i hi1 hi2 => hpre i (by omega))
  obtain ⟨g, hg⟩ : ∃ g, m - k = g + 1 := ⟨m - k - 1, by omega⟩
  rw [hs]
  simp only [Nat.zero_add, hg]
  rw [attempts_step_complete net url fn fp p m k g (effAfter net p fp 0 k eff) cs hA,
    streamToDisk_size]
  unfold retrySchedule
  rw [List.range_eq_range']

theorem attempts_run_exhaust (net : Nat → AttemptOutcome) (url fn fp p : String)
    (m : Nat) (eff : FetchEffects) (hm : 1 ≤ m)
    (hpre : ∀ i < m, isTransient (net i) = true) :
    ((download_attempts net url fn fp p m 0 m eff).1.map (·.success) = some false) ∧
    (download_attempts net url fn fp p m 0 m eff).2.2 =
      retrySchedule url (m - 1) ++ [.request url] := by
  have hs := download_attempts_skip net url fn fp p m (m - 1) 0 m eff (by omega) (by omega)
    (fun i hi1 hi2 => hpre i (by omega))
  have hf : m - (m - 1) = 0 + 1 := by omega
  have htr : isTransient (net (m - 1)) = true := hpre (m - 1) (by omega)
  have hl : 0 + (m - 1) = m - 1 := by omega
  rw [hs]
  simp only [Nat.zero_add, hf]
  have hsched : ((List.range' 0 (m - 1)).flatMap fun i => [Ev.request url, Ev.sleep (2 ^ i)]) =
      retrySchedule url (m - 1) := by
    unfold retrySchedule
    rw [List.range_eq_range']
  cases hA : net (m - 1) with
  | complete cs => rw [hA] at htr; simp [isTransient] at htr
  | diskFail cs e => rw [hA] at htr; simp [isTransient] at htr
  | noResponse e =>
    rw [attempts_step_noResponse_last net url fn fp p m (m - 1) 0 _ e hA rfl]
    simp [hsched]
  | transportFail cs e =>
    rw [attempts_step_transportFail_last net url fn fp p m (m - 1) 0 _ cs e hA rfl]
    simp [hsched]

theorem attempts_run_disk (net : Nat → AttemptOutcome) (url fn fp p : String)
    (m k : Nat) (cs : List Nat) (e : String) (eff : FetchEffects)
    (hk : k < m) (hpre : ∀ i < k, isTransient (net i) = true)
    (hA : net k = .diskFail cs e) :
    download_attempts net url fn fp p m 0 m eff =
      (some ⟨url, false, errMsg fn e, 0⟩,
       (streamToDisk (effAfter net p fp 0 k eff) p fp cs).1,
       retrySchedule url k ++ [.request url]) := by
  have hs := download_attempts_skip net url fn fp p m k 0 m eff (by omega) hk
    (fun i hi1 hi2 => hpre i (by omega))
  obtain ⟨g, hg⟩ : ∃ g, m - k = g + 1 := ⟨m - k - 1, by omega⟩
  rw [hs]
  simp only [Nat.zero_add, hg]
  rw [attempts_step_diskFail net url fn fp p m k g (effAfter net p fp 0 k eff) cs e hA]
  unfold retrySchedule
  rw [List.range_eq_range']

/- ### Invariants of the retry loop, by induction on the remaining fuel -/

theorem attempts_isSome (net : Nat → AttemptOutcome) (url fn fp p : String) (m : Nat) :
    ∀ fuel attempt eff, 1 ≤ fuel → attempt + fuel = m →
      (download_attempts net url fn fp p m attempt fuel eff).1.isSome = true := by
  intro fuel
  induction fuel with
  | zero => intro attempt eff h _; omega
  | succ f ih =>
    intro attempt eff _ h1
    cases hA : net attempt with
    | complete cs =>
      rw [attempts_step_complete net url fn fp p m attempt f eff cs hA]; rfl
    | diskFail cs e =>
      rw [attempts_step_diskFail net url fn fp p m attempt f eff cs e hA]; rfl
    | noResponse e =>
      by_cases hl : attempt = m - 1
      · rw [attempts_step_noResponse_last net url fn fp p m attempt f eff e hA hl]; rfl
      · rw [attempts_step_noResponse_retry net url fn fp p m attempt f eff e hA hl]
        exact ih (attempt + 1) eff (by omega) (by omega)
    | transportFail cs e =>
      by_cases hl : attempt = m - 1
      · rw [attempts_step_transportFail_last net url fn fp p m attempt f eff cs e hA hl]; rfl
      · rw [attempts_step_transportFail_retry net url fn fp p m attempt f eff cs e hA hl]
        exact ih (attempt + 1) (streamToDisk eff p fp cs).1 (by omega) (by omega)

theorem attempts_files_mono (net : Nat → AttemptOutcome) (url fn fp p : String) (m : Nat) :
    ∀ fuel attempt eff x, x ∈ eff.fs.files →
      x ∈ (download_attempts net url fn fp p m attempt fuel eff).2.1.fs.files := by
  intro fuel
  induction fuel with
  | zero =>
    intro attempt eff x hx
    rw [attempts_step_zero]
    exact hx
  | succ f ih =>
    intro attempt eff x hx
    cases hA : net attempt with
    | complete cs =>
      rw [attempts_step_complete net url fn fp p m attempt f eff cs hA]
      exact streamToDisk_mem_of_mem eff p fp x cs hx
    | diskFail cs e =>
      rw [attempts_step_diskFail net url fn fp p m attempt f eff cs e hA]
      exact streamToDisk_mem_of_mem eff p fp x cs hx
    | noResponse e =>
      by_cases hl : attempt = m - 1
      · rw [attempts_step_noResponse_last net url fn fp p m attempt f eff e hA hl]
        exact hx
      · rw [attempts_step_noResponse_retry net url fn fp p m attempt f eff e hA hl]
        exact ih (attempt + 1) eff x hx
    | transportFail cs e =>
      by_cases hl : attempt = m - 1
      · rw [attempts_step_transportFail_last net url fn fp p m attempt f eff cs e hA hl]
        exact streamToDisk_mem_of_mem eff p fp x cs hx
      · rw [attempts_step_transportFail_retry net url fn fp p m attempt f eff cs e hA hl]
        exact ih (attempt + 1) (streamToDisk eff p fp cs).1 x
          (streamToDisk_mem_of_mem eff p fp x cs hx)

theorem attempts_success_file (net : Nat → AttemptOutcome) (url fn fp p : String) (m : Nat) :
    ∀ fuel attempt eff r, (download_attempts net url fn fp p m attempt fuel eff).1 = some r →
      r.success = true → fp ∈ (download_attempts net url fn fp p m attempt fuel eff).2.1.fs.files := by
  intro fuel
  induction fuel with
  | zero =>
    intro attempt eff r hr _
    rw [attempts_step_zero] at hr
    exact absurd hr (by simp)
  | succ f ih =>
    intro attempt eff r hr hsucc
    cases hA : net attempt with
    | complete cs =>
      rw [attempts_step_complete net url fn fp p m attempt f eff cs hA]
      exact streamToDisk_mem_filepath _ p fp cs
    | diskFail cs e =>
      rw [attempts_step_diskFail net url fn fp p m attempt f eff cs e hA] at hr
      rw [Option.some_inj] at hr
      rw [← hr] at hsucc
      simp at hsucc
    | noResponse e =>
      by_cases hl : attempt = m - 1
      · rw [attempts_step_noResponse_last net url fn fp p m attempt f eff e hA hl] at hr
        rw [Option.some_inj] at hr
        rw [← hr] at hsucc
        simp at hsucc
      · rw [attempts_step_noResponse_retry net url fn fp p m attempt f eff e hA hl] at hr ⊢
        exact ih (attempt + 1) eff r hr hsucc
    | transportFail cs e =>
      by_cases hl : attempt = m - 1
      · rw [attempts_step_transportFail_last net url fn fp p m attempt f eff cs e hA hl] at hr
        rw [Option.some_inj] at hr
        rw [← hr] at hsucc
        simp at hsucc
      · rw [attempts_step_transportFail_retry net url fn fp p m attempt f eff cs e hA hl] at hr ⊢
        exact ih (attempt + 1) (streamToDisk eff p fp cs).1 r hr hsucc

theorem attempts_noResponse_eff (net : Nat → AttemptOutcome) (url fn fp p : String) (m : Nat)
    (hnet : ∀ i, ∃ e, net i = AttemptOutcome.noResponse e) :
    ∀ fuel attempt eff, (download_attempts net url fn fp p m attempt fuel eff).2.1 = eff := by
  intro fuel
  induction fuel with
  | zero =>
    intro attempt eff
    rw [attempts_step_zero]
  | succ f ih =>
    intro attempt eff
    obtain ⟨e, hA⟩ := hnet attempt
    by_cases hl : attempt = m - 1
    · rw [attempts_step_noResponse_last net url fn fp p m attempt f eff e hA hl]
    · rw [attempts_step_noResponse_retry net url fn fp p m attempt f eff e hA hl]
      exact ih (attempt + 1) eff

theorem attempts_bytes (net : Nat → AttemptOutcome) (url fn fp p : String) (m : Nat)
    (hnet : ∀ i cs e, net i = AttemptOutcome.transportFail cs e → cs.sum = 0)
    (hnet2 : ∀ i cs e, net i = AttemptOutcome.diskFail cs e → cs.sum = 0) :
    ∀ fuel attempt eff,
      (download_attempts net url fn fp p m attempt fuel eff).2.1.stats.bytes_downloaded =
        eff.stats.bytes_downloaded +
          (download_attempts net url fn fp p m attempt fuel eff).1.elim 0 (·.bytesTransferred) := by
  intro fuel
  induction fuel with
  | zero =>
    intro attempt eff
    rw [attempts_step_zero]
    simp
  | succ f ih =>
    intro attempt eff
    cases hA : net attempt with
    | complete cs =>
      rw [attempts_step_complete net url fn fp p m attempt f eff cs hA]
      simp [streamToDisk_bytes, streamToDisk_size]
    | diskFail cs e =>
      rw [attempts_step_diskFail net url fn fp p m attempt f eff cs e hA]
      simp [streamToDisk_bytes, hnet2 attempt cs e hA]
    | noResponse e =>
      by_cases hl : attempt = m - 1
      · rw [attempts_step_noResponse_last net url fn fp p m attempt f eff e hA hl]
        simp
      · rw [attempts_step_noResponse_retry net url fn fp p m attempt f eff e hA hl]
        exact ih (attempt + 1) eff
    | transportFail cs e =>
      by_cases hl : attempt = m - 1
      · rw [attempts_step_transportFail_last net url fn fp p m attempt f eff cs e hA hl]
        simp [streamToDisk_bytes, hnet attempt cs e hA]
      · rw [attempts_step_transportFail_retry net url fn fp p m attempt f eff cs e hA hl]
        have := ih (attempt + 1) (streamToDisk eff p fp cs).1
        rw [this, streamToDisk_bytes, hnet attempt cs e hA]
        simp

/- ### `download_file`: the two top-level branches -/

theorem download_file_skip_eq (net : Nat → AttemptOutcome) (url p : String)
    (eff : FetchEffects) (m : Nat) (h : (p ++ "/" ++ basename url) ∈ eff.fs.files) :
    download_file net url p eff m =
      (some ⟨url, true, "Already exists: " ++ basename url, 0⟩, eff, []) := by
  simp only [download_file]
  rw [if_pos h]

theorem download_file_attempts_eq (net : Nat → AttemptOutcome) (url p : String)
    (eff : FetchEffects) (m : Nat) (h : (p ++ "/" ++ basename url) ∉ eff.fs.files) :
    download_file net url p eff m =
      download_attempts net url (basename url) (p ++ "/" ++ basename url) p m 0 m eff := by
  simp only [download_file]
  rw [if_neg h]

theorem download_file_isSome (net : Nat → AttemptOutcome) (url p : String)
    (eff : FetchEffects) (m : Nat) (hm : 1 ≤ m) :
    (download_file net url p eff m).1.isSome = true := by
  by_cases h : (p ++ "/" ++ basename url) ∈ eff.fs.files
  · rw [download_file_skip_eq net url p eff m h]; rfl
  · rw [download_file_attempts_eq net url p eff m h]
    exact attempts_isSome net url (basename url) (p ++ "/" ++ basename url) p m m 0 eff hm
      (by omega)

theorem download_file_files_mono (net : Nat → AttemptOutcome) (url p : String)
    (eff : FetchEffects) (m : Nat) (x : String) (hx : x ∈ eff.fs.files) :
    x ∈ (download_file net url p eff m).2.1.fs.files := by
  by_cases h : (p ++ "/" ++ basename url) ∈ eff.fs.files
  · rw [download_file_skip_eq net url p eff m h]; exact hx
  · rw [download_file_attempts_eq net url p eff m h]
    exact attempts_files_mono net url (basename url) (p ++ "/" ++ basename url) p m m 0 eff x hx

theorem download_file_success_file (net : Nat → AttemptOutcome) (url p : String)
    (eff : FetchEffects) (m : Nat) (r : DownloadResult)
    (hr : (download_file net url p eff m).1 = some r) (hs : r.success = true) :
    (p ++ "/" ++ basename url) ∈ (download_file net url p eff m).2.1.fs.files := by
  by_cases h : (p ++ "/" ++ basename url) ∈ eff.fs.files
  · rw [download_file_skip_eq net url p eff m h]; exact h
  · rw [download_file_attempts_eq net url p eff m h] at hr ⊢
    exact attempts_success_file net url (basename url) (p ++ "/" ++ basename url) p m m 0 eff
      r hr hs

theorem download_file_bytes (net : Nat → AttemptOutcome) (url p : String)
    (eff : FetchEffects) (m : Nat)
    (hnet : ∀ i cs e, net i = AttemptOutcome.transportFail cs e → cs.sum = 0)
    (hnet2 : ∀ i cs e, net i = AttemptOutcome.diskFail cs e → cs.sum = 0) :
    (download_file net url p eff m).2.1.stats.bytes_downloaded =
      eff.stats.bytes_downloaded +
        (download_file net url p eff m).1.elim 0 (·.bytesTransferred) := by
  by_cases h : (p ++ "/" ++ basename url) ∈ eff.fs.files
  · rw [download_file_skip_eq net url p eff m h]; simp
  · rw [download_file_attempts_eq net url p eff m h]
    exact attempts_bytes net url (basename url) (p ++ "/" ++ basename url) p m hnet hnet2 m 0 eff

/- ### `run_items`: the drained pool -/

theorem run_items_nil (net : Nat → Nat → AttemptOutcome) (p : String) (idx : Nat)
    (eff : FetchEffects) : run_items net p [] idx eff = ([], eff) := rfl

theorem run_items_cons (net : Nat → Nat → AttemptOutcome) (p url : String)
    (rest : List String) (idx : Nat) (eff : FetchEffects) :
    run_items net p (url :: rest) idx eff =
      ((download_file (net idx) url p eff 3).1.toList ++
        (run_items net p rest (idx + 1) (download_file (net idx) url p eff 3).2.1).1,
       (run_items net p rest (idx + 1) (download_file (net idx) url p eff 3).2.1).2) := by
  conv_lhs => unfold run_items

theorem run_items_length (net : Nat → Nat → AttemptOutcome) (p : String) :
    ∀ (urls : List String) (idx : Nat) (eff : FetchEffects),
      (run_items net p urls idx eff).1.length = urls.length := by
  intro urls
  induction urls with
  | nil => intro idx eff; rfl
  | cons u rest ih =>
    intro idx eff
    rw [run_items_cons]
    have h1 := download_file_isSome (net idx) u p eff 3 (by omega)
    obtain ⟨r, hr⟩ := Option.isSome_iff_exists.mp h1
    simp [hr, ih (idx + 1)]

theorem run_items_files_mono (net : Nat → Nat → AttemptOutcome) (p : String) :
    ∀ (urls : List String) (idx : Nat) (eff : FetchEffects) (x : String), x ∈ eff.fs.files →
      x ∈ (run_items net p urls idx eff).2.fs.files := by
  intro urls
  induction urls with
  | nil => intro idx eff x hx; exact hx
  | cons u rest ih =>
    intro idx eff x hx
    rw [run_items_cons]
    exact ih (idx + 1) _ x (download_file_files_mono (net idx) u p eff 3 x hx)

theorem run_items_success_files (net : Nat → Nat → AttemptOutcome) (p : String) :
    ∀ (urls : List String) (idx : Nat) (eff : FetchEffects),
      (∀ r ∈ (run_items net p urls idx eff).1, r.success = true) →
      ∀ u ∈ urls, (p ++ "/" ++ basename u) ∈ (run_items net p urls idx eff).2.fs.files := by
  intro urls
  induction urls with
  | nil => intro idx eff _ u hu; exact absurd hu (by simp)
  | cons v rest ih =>
    intro idx eff hall u hu
    rw [run_items_cons] at hall ⊢
    obtain ⟨r, hr⟩ := Option.isSome_iff_exists.mp (download_file_isSome (net idx) v p eff 3
      (by omega))
    rcases List.mem_cons.mp hu with rfl | hu'
    · have hrs : r.success = true := by
        apply hall r
        rw [hr]
        simp
      have hfile := download_file_success_file (net idx) u p eff 3 r hr hrs
      exact run_items_files_mono net p rest (idx + 1) _ _ hfile
    · exact ih (idx + 1) _ (fun r' hr' => hall r' (by simp [hr'])) u hu'

theorem run_items_all_skip (net : Nat → Nat → AttemptOutcome) (p : String) :
    ∀ (urls : List String) (idx : Nat) (eff : FetchEffects),
      (∀ u ∈ urls, (p ++ "/" ++ basename u) ∈ eff.fs.files) →
      run_items net p urls idx eff =
        (urls.map fun u => ⟨u, true, "Already exists: " ++ basename u, 0⟩, eff) := by
  intro urls
  induction urls with
  | nil => intro idx eff _; rfl
  | cons v rest ih =>
    intro idx eff hall
    rw [run_items_cons, download_file_skip_eq (net idx) v p eff 3 (hall v (by simp))]
    rw [ih (idx + 1) eff (fun u hu => hall u (by simp [hu]))]
    simp

theorem run_items_bytes (net : Nat → Nat → AttemptOutcome) (p : String)
    (hnet : ∀ idx i cs e, net idx i = AttemptOutcome.transportFail cs e → cs.sum = 0)
    (hnet2 : ∀ idx i cs e, net idx i = AttemptOutcome.diskFail cs e → cs.sum = 0) :
    ∀ (urls : List String) (idx : Nat) (eff : FetchEffects),
      (run_items net p urls idx eff).2.stats.bytes_downloaded =
        eff.stats.bytes_downloaded +
          ((run_items net p urls idx eff).1.map (·.bytesTransferred)).sum := by
  intro urls
  induction urls with
  | nil => intro idx eff; simp [run_items_nil]
  | cons v rest ih =>
    intro idx eff
    rw [run_items_cons]
    have hb := download_file_bytes (net idx) v p eff 3 (hnet idx) (hnet2 idx)
    have hr := ih (idx + 1) (download_file (net idx) v p eff 3).2.1
    simp only [List.map_append, List.sum_append]
    rw [hr, hb]
    cases hc : (download_file (net idx) v p eff 3).1 <;> simp [hc] <;> omega

/- ### `download_archives`: shape of a produced summary -/

theorem download_archives_spec (net : Nat → Nat → AttemptOutcome) (s e : Nat) (p : String)
    (fs0 : FS) (sum : Summary) (rs : List DownloadResult)
    (h : (download_archives net s e p fs0).1 = some (sum, rs)) :
    rs = (run_items net p ((generate_urls s e).map Prod.fst) 0 ⟨fs0, DownloadStats.init, 0⟩).1 ∧
    sum = ⟨(generate_urls s e).length, rs.countP (·.success), rs.countP (fun r => !r.success),
      (run_items net p ((generate_urls s e).map Prod.fst) 0
        ⟨fs0, DownloadStats.init, 0⟩).2.stats.bytes_downloaded⟩ ∧
    (download_archives net s e p fs0).2 =
      (run_items net p ((generate_urls s e).map Prod.fst) 0 ⟨fs0, DownloadStats.init, 0⟩).2 := by
  by_cases hemp : (generate_urls s e).isEmpty = true
  · simp only [download_archives, hemp, if_pos] at h
    simp at h
  · simp only [download_archives, hemp] at h ⊢
    simp only [Bool.false_eq_true, if_false] at h ⊢
    obtain ⟨h1, h2⟩ := Prod.mk.injEq .. ▸ (Option.some_inj.mp h)
    constructor
    · exact h2.symm
    · constructor
      · rw [← h1, h2]
      · trivial

/- ### Claim theorems -/

/-- C2: for every start ≤ end, `generate_urls` returns exactly
floor((truncatedEnd − truncatedStart)/1hour) + 1 WorkItems; their buckets
are, in order, truncatedStart, truncatedStart + 1h, truncatedStart + 2h, ...
(ascending, consecutive buckets exactly one hour = 3600 s apart, the first
being start truncated to its hour); every bucket lies in
[truncatedStart, end] and carries the URL derived from it; and
start = end yields exactly one WorkItem. -/
theorem generate_urls_spec (s e : Nat) (h : s ≤ e) :
    (generate_urls s e).length = (truncHour e - truncHour s) / 3600 + 1 ∧
    (generate_urls s e).map Prod.snd =
      List.range' (truncHour s) ((truncHour e - truncHour s) / 3600 + 1) 3600 ∧
    (∀ x ∈ generate_urls s e,
      truncHour s ≤ x.2 ∧ x.2 ≤ e ∧ x.1 = archive_url x.2) ∧
    (s = e → (generate_urls s e).length = 1) := by
  have heq := generate_urls_eq s e h
  have hcount : (truncHour e - truncHour s) / 3600 = e / 3600 - s / 3600 := by
    unfold truncHour
    omega
  refine ⟨?_, ?_, ?_, ?_⟩
  · rw [heq, hcount]
    simp
  · rw [heq, List.map_map]
    have hid : (Prod.snd ∘ fun t : Nat => (archive_url t, t)) = id := rfl
    rw [hid, List.map_id, hcount]
  · intro x hx
    rw [heq] at hx
    obtain ⟨t, ht, rfl⟩ := List.mem_map.mp hx
    obtain ⟨i, hi, rfl⟩ := List.mem_range'.mp ht
    have ht0 : truncHour s = s / 3600 * 3600 := rfl
    refine ⟨?_, ?_, rfl⟩
    · show truncHour s ≤ truncHour s + 3600 * i
      omega
    · show truncHour s + 3600 * i ≤ e
      rw [ht0]
      omega
  · intro hse
    subst hse
    rw [heq]
    simp

/-- C2 witness: a concrete range crossing one hour boundary. -/
theorem generate_urls_spec_witness :
    (generate_urls 1800 3600).length = (truncHour 3600 - truncHour 1800) / 3600 + 1 :=
  (generate_urls_spec 1800 3600 (by decide)).1

/-- C4: a WorkItem whose target path already exists short-circuits: success
with bytesTransferred = 0 and the "Already exists" message, the effects are
untouched (no stats change) and the trace is empty (no GET request); the
message differs from the successful-download message. -/
theorem download_file_preexisting (net : Nat → AttemptOutcome) (url p : String)
    (eff : FetchEffects) (m : Nat)
    (h : (p ++ "/" ++ basename url) ∈ eff.fs.files) :
    download_file net url p eff m =
      (some ⟨url, true, "Already exists: " ++ basename url, 0⟩, eff, []) ∧
    ∀ g : String, "Already exists: " ++ basename url ≠ "Downloaded: " ++ g :=
  ⟨download_file_skip_eq net url p eff m h, fun g => already_ne_downloaded _ g⟩

/-- C4 witness: the target file is present, the call is a pure skip. -/
theorem download_file_preexisting_witness :
    download_file (fun _ => AttemptOutcome.noResponse "err")
      "https://data.gharchive.org/1970-01-01-0.json.gz" "work/archives"
      ⟨⟨[], ["work/archives/1970-01-01-0.json.gz"]⟩, DownloadStats.init, 0⟩ 3 =
      (some ⟨"https://data.gharchive.org/1970-01-01-0.json.gz", true,
        "Already exists: " ++ basename "https://data.gharchive.org/1970-01-01-0.json.gz", 0⟩,
       ⟨⟨[], ["work/archives/1970-01-01-0.json.gz"]⟩, DownloadStats.init, 0⟩, []) :=
  (download_file_preexisting (fun _ => AttemptOutcome.noResponse "err")
    "https://data.gharchive.org/1970-01-01-0.json.gz" "work/archives"
    ⟨⟨[], ["work/archives/1970-01-01-0.json.gz"]⟩, DownloadStats.init, 0⟩ 3 (by decide)).1

/-- C5 (amended): the Fetcher produces exactly one DownloadResult provided
the maximum retry count is at least 1 or the file pre-exists; with a retry
count of 0 and no pre-existing file, the `for attempt in range(0)` body
never runs and the Python function returns `None` — no DownloadResult. -/
theorem download_file_exactly_one (net : Nat → AttemptOutcome) (url p : String)
    (eff : FetchEffects) (m : Nat)
    (h : 1 ≤ m ∨ (p ++ "/" ++ basename url) ∈ eff.fs.files) :
    (download_file net url p eff m).1.isSome = true := by
  rcases h with hm | hmem
  · exact download_file_isSome net url p eff m hm
  · rw [download_file_skip_eq net url p eff m hmem]
    rfl

/-- C5 counterexample: with a maximum retry count of 0 and no pre-existing
file the Fetcher yields zero DownloadResults, refuting the claim as stated
("for every maximum retry count ... exactly one"). -/
theorem download_file_zero_retries_no_result :
    (download_file (fun _ => AttemptOutcome.noResponse "err")
      "https://data.gharchive.org/1970-01-01-0.json.gz" "work/archives"
      ⟨⟨[], []⟩, DownloadStats.init, 0⟩ 0).1 = none := by decide

/-- C5 witness: at the default retry count 3 a result is always produced. -/
theorem download_file_exactly_one_witness :
    (download_file (fun _ => AttemptOutcome.noResponse "err")
      "https://data.gharchive.org/1970-01-01-0.json.gz" "work/archives"
      ⟨⟨[], []⟩, DownloadStats.init, 0⟩ 3).1.isSome = true :=
  download_file_exactly_one (fun _ => AttemptOutcome.noResponse "err")
    "https://data.gharchive.org/1970-01-01-0.json.gz" "work/archives"
    ⟨⟨[], []⟩, DownloadStats.init, 0⟩ 3 (Or.inl (by decide))

/-- C7: reading the current speed returns 0 with fewer than 2 window
samples, returns 0 when the newest and oldest window timestamps coincide
(the division is never performed on a zero span), and otherwise (timestamps
arriving from a monotone clock, so oldest ≤ newest) returns the window byte
sum divided by (newest − oldest), converted to MiB/s. -/
theorem get_speed_spec (s : DownloadStats)
    (hmono : s.recent_times.headD 0 ≤ s.recent_times.getLastD 0) :
    (s.recent_times.length < 2 → s.get_speed = 0) ∧
    (2 ≤ s.recent_times.length → s.recent_times.getLastD 0 = s.recent_times.headD 0 →
      s.get_speed = 0) ∧
    (2 ≤ s.recent_times.length → s.recent_times.getLastD 0 ≠ s.recent_times.headD 0 →
      s.get_speed = (s.recent_bytes.sum : ℚ) /
        (s.recent_times.getLastD 0 - s.recent_times.headD 0) / (1024 * 1024)) := by
  unfold DownloadStats.get_speed
  refine ⟨?_, ?_, ?_⟩
  · intro hlen
    rw [if_pos hlen]
  · intro hlen heq
    rw [if_neg (by omega)]
    have hz : s.recent_times.getLastD 0 - s.recent_times.headD 0 = 0 := by
      rw [heq]
      ring
    rw [hz]
    norm_num
  · intro hlen hne
    rw [if_neg (by omega)]
    have hpos : 0 < s.recent_times.getLastD 0 - s.recent_times.headD 0 := by
      rcases lt_or_eq_of_le hmono with hlt | heq2
      · linarith
      · exact absurd heq2.symm hne
    rw [if_pos hpos]

/-- C7 witness: one sample gives 0; equal timestamps give 0; samples of 3
and 4 bytes spanning timestamps 1 to 3 give (7/2)/1MiB. -/
theorem get_speed_spec_witness :
    DownloadStats.get_speed ⟨0, [5], [1]⟩ = 0 ∧
    DownloadStats.get_speed ⟨10, [3, 4], [2, 2]⟩ = 0 ∧
    DownloadStats.get_speed ⟨10, [3, 4], [1, 3]⟩ =
      (([3, 4] : List Nat).sum : ℚ) / ((3 : ℚ) - 1) / (1024 * 1024) :=
  ⟨(get_speed_spec ⟨0, [5], [1]⟩ (by norm_num)).1 (by norm_num),
   (get_speed_spec ⟨10, [3, 4], [2, 2]⟩ (by norm_num)).2.1 (by norm_num) rfl,
   (get_speed_spec ⟨10, [3, 4], [1, 3]⟩ (by norm_num)).2.2 (by norm_num) (by norm_num)⟩

/-- C10: when the target file does not pre-exist and every attempt raises a
transport error without a 2xx response (`noResponse`), the whole effect
state — in particular the filesystem: no directory created, no file
written — is returned unchanged, because `os.makedirs` and `open` only run
after `raise_for_status` passes. -/
theorem download_file_all_noResponse_fs (net : Nat → AttemptOutcome) (url p : String)
    (eff : FetchEffects) (m : Nat)
    (hpre : (p ++ "/" ++ basename url) ∉ eff.fs.files)
    (hnet : ∀ i, ∃ e, net i = AttemptOutcome.noResponse e) :
    (download_file net url p eff m).2.1 = eff := by
  rw [download_file_attempts_eq net url p eff m hpre]
  exact attempts_noResponse_eff net url (basename url) (p ++ "/" ++ basename url) p m hnet m
    0 eff

/-- C10 witness: three timeouts leave the empty filesystem empty. -/
theorem download_file_all_noResponse_fs_witness :
    (download_file (fun _ => AttemptOutcome.noResponse "timeout")
      "https://data.gharchive.org/1970-01-01-0.json.gz" "work/archives"
      ⟨⟨[], []⟩, DownloadStats.init, 0⟩ 3).2.1 = ⟨⟨[], []⟩, DownloadStats.init, 0⟩ :=
  download_file_all_noResponse_fs (fun _ => AttemptOutcome.noResponse "timeout")
    "https://data.gharchive.org/1970-01-01-0.json.gz" "work/archives"
    ⟨⟨[], []⟩, DownloadStats.init, 0⟩ 3 (by decide) (fun _ => ⟨"timeout", rfl⟩)

/-- C3: with no pre-existing file, (a) if the first N attempts fail with
transport errors (N < maxRetries) and attempt N succeeds, the result is a
success and the trace is GET, sleep 2^0, GET, sleep 2^1, ..., GET — exactly
N backoff sleeps of 1s, 2s, 4s, ..., each between two consecutive attempts;
(b) if every one of the maxRetries attempts fails with a transport error,
the result is a failure and the trace ends with the final GET — sleeps only
after attempts 0..maxRetries−2, none after the final attempt. -/
theorem download_file_backoff (net : Nat → AttemptOutcome) (url p : String)
    (eff : FetchEffects) (m N : Nat) (chunks : List Nat)
    (hpre : (p ++ "/" ++ basename url) ∉ eff.fs.files) :
    (N < m → (∀ i < N, isTransient (net i) = true) →
      net N = AttemptOutcome.complete chunks →
      (download_file net url p eff m).1.map (·.success) = some true ∧
      (download_file net url p eff m).2.2 = retrySchedule url N ++ [Ev.request url]) ∧
    (1 ≤ m → (∀ i < m, isTransient (net i) = true) →
      (download_file net url p eff m).1.map (·.success) = some false ∧
      (download_file net url p eff m).2.2 =
        retrySchedule url (m - 1) ++ [Ev.request url]) := by
  rw [download_file_attempts_eq net url p eff m hpre]
  constructor
  · intro hN htr hA
    rw [attempts_run_complete net url (basename url) (p ++ "/" ++ basename url) p m N chunks
      eff hN htr hA]
    exact ⟨rfl, rfl⟩
  · intro hm htr
    exact attempts_run_exhaust net url (basename url) (p ++ "/" ++ basename url) p m eff hm htr

/-- C3 witness: two transient failures then success (sleeps of 1s and 2s),
and a run of three transient failures (sleeps of 1s and 2s, none after the
last attempt). -/
theorem download_file_backoff_witness :
    ((download_file (fun i => if i < 2 then AttemptOutcome.noResponse "t"
        else AttemptOutcome.complete [5, 0, 7])
      "https://data.gharchive.org/1970-01-01-0.json.gz" "work/archives"
      ⟨⟨[], []⟩, DownloadStats.init, 0⟩ 3).1.map (·.success) = some true ∧
     (download_file (fun i => if i < 2 then AttemptOutcome.noResponse "t"
        else AttemptOutcome.complete [5, 0, 7])
      "https://data.gharchive.org/1970-01-01-0.json.gz" "work/archives"
      ⟨⟨[], []⟩, DownloadStats.init, 0⟩ 3).2.2 =
        retrySchedule "https://data.gharchive.org/1970-01-01-0.json.gz" 2 ++
          [Ev.request "https://data.gharchive.org/1970-01-01-0.json.gz"]) ∧
    ((download_file (fun _ => AttemptOutcome.noResponse "t")
      "https://data.gharchive.org/1970-01-01-0.json.gz" "work/archives"
      ⟨⟨[], []⟩, DownloadStats.init, 0⟩ 3).1.map (·.success) = some false ∧
     (download_file (fun _ => AttemptOutcome.noResponse "t")
      "https://data.gharchive.org/1970-01-01-0.json.gz" "work/archives"
      ⟨⟨[], []⟩, DownloadStats.init, 0⟩ 3).2.2 =
        retrySchedule "https://data.gharchive.org/1970-01-01-0.json.gz" (3 - 1) ++
          [Ev.request "https://data.gharchive.org/1970-01-01-0.json.gz"]) :=
  ⟨(download_file_backoff (fun i => if i < 2 then AttemptOutcome.noResponse "t"
      else AttemptOutcome.complete [5, 0, 7])
      "https://data.gharchive.org/1970-01-01-0.json.gz" "work/archives"
      ⟨⟨[], []⟩, DownloadStats.init, 0⟩ 3 2 [5, 0, 7] (by decide)).1
      (by decide) (by decide) (by decide),
   (download_file_backoff (fun _ => AttemptOutcome.noResponse "t")
      "https://data.gharchive.org/1970-01-01-0.json.gz" "work/archives"
      ⟨⟨[], []⟩, DownloadStats.init, 0⟩ 3 2 [] (by decide)).2
      (by decide) (by decide)⟩

/-- C6: with no pre-existing file, if the attempt at index k (after k
retried transport errors) raises a non-transport exception, the Fetcher
returns a failure immediately: the result carries the "Error downloading"
message and zero bytes, the trace ends at that attempt's GET — no further
attempt and no backoff sleep after the error — and the message is distinct
from every retry-exhaustion ("Failed after N attempts") message. -/
theorem download_file_terminal_error (net : Nat → AttemptOutcome) (url p : String)
    (eff : FetchEffects) (m k : Nat) (cs : List Nat) (e : String)
    (hpre : (p ++ "/" ++ basename url) ∉ eff.fs.files)
    (hk : k < m) (htr : ∀ i < k, isTransient (net i) = true)
    (hA : net k = AttemptOutcome.diskFail cs e) :
    (download_file net url p eff m).1 = some ⟨url, false, errMsg (basename url) e, 0⟩ ∧
    (download_file net url p eff m).2.2 = retrySchedule url k ++ [Ev.request url] ∧
    ∀ (n : Nat) (g h' : String), errMsg (basename url) e ≠ failMsg n g h' := by
  rw [download_file_attempts_eq net url p eff m hpre]
  rw [attempts_run_disk net url (basename url) (p ++ "/" ++ basename url) p m k cs e eff
    hk htr hA]
  exact ⟨rfl, rfl, fun n g h' => errMsg_ne_failMsg (basename url) e n g h'⟩

/-- C6 witness: one transport error, then a disk failure on attempt 1: the
run stops there with the "Error downloading" message. -/
theorem download_file_terminal_error_witness :
    (download_file (fun i => if i = 0 then AttemptOutcome.noResponse "t"
        else AttemptOutcome.diskFail [9] "disk full")
      "https://data.gharchive.org/1970-01-01-0.json.gz" "work/archives"
      ⟨⟨[], []⟩, DownloadStats.init, 0⟩ 3).1 =
      some ⟨"https://data.gharchive.org/1970-01-01-0.json.gz", false,
        errMsg (basename "https://data.gharchive.org/1970-01-01-0.json.gz") "disk full", 0⟩ ∧
    (download_file (fun i => if i = 0 then AttemptOutcome.noResponse "t"
        else AttemptOutcome.diskFail [9] "disk full")
      "https://data.gharchive.org/1970-01-01-0.json.gz" "work/archives"
      ⟨⟨[], []⟩, DownloadStats.init, 0⟩ 3).2.2 =
      retrySchedule "https://data.gharchive.org/1970-01-01-0.json.gz" 1 ++
        [Ev.request "https://data.gharchive.org/1970-01-01-0.json.gz"] :=
  ⟨(download_file_terminal_error (fun i => if i = 0 then AttemptOutcome.noResponse "t"
      else AttemptOutcome.diskFail [9] "disk full")
      "https://data.gharchive.org/1970-01-01-0.json.gz" "work/archives"
      ⟨⟨[], []⟩, DownloadStats.init, 0⟩ 3 1 [9] "disk full"
      (by decide) (by decide) (by decide) (by decide)).1,
   (download_file_terminal_error (fun i => if i = 0 then AttemptOutcome.noResponse "t"
      else AttemptOutcome.diskFail [9] "disk full")
      "https://data.gharchive.org/1970-01-01-0.json.gz" "work/archives"
      ⟨⟨[], []⟩, DownloadStats.init, 0⟩ 3 1 [9] "disk full"
      (by decide) (by decide) (by decide) (by decide)).2.1⟩

/-- C8: whenever `download_archives` produces a Summary, every collected
DownloadResult is tallied as exactly one of success or failure, so
successCount + failCount = totalItems. -/
theorem summary_counts_cover (net : Nat → Nat → AttemptOutcome) (s e : Nat) (p : String)
    (fs0 : FS) (sum : Summary) (rs : List DownloadResult)
    (h : (download_archives net s e p fs0).1 = some (sum, rs)) :
    sum.successful + sum.failed = sum.totalItems := by
  obtain ⟨hrs, hsum, -⟩ := download_archives_spec net s e p fs0 sum rs h
  rw [hsum]
  show rs.countP (·.success) + rs.countP (fun r => !r.success) = (generate_urls s e).length
  rw [countP_add_countP_not (·.success) rs, hrs, run_items_length, List.length_map]

/-- C8 witness: a one-item run that downloads successfully. -/
theorem summary_counts_cover_witness :
    (⟨1, 1, 0, 0⟩ : Summary).successful + (⟨1, 1, 0, 0⟩ : Summary).failed =
      (⟨1, 1, 0, 0⟩ : Summary).totalItems :=
  summary_counts_cover (fun _ _ => AttemptOutcome.complete []) 0 0 "work/archives" ⟨[], []⟩
    ⟨1, 1, 0, 0⟩
    [⟨"https://data.gharchive.org/1970-01-01-0.json.gz", true,
      "Downloaded: 1970-01-01-0.json.gz", 0⟩] (by decide)

/-- C9 (amended): whenever `download_archives` produces a Summary and no
failed attempt streams any bytes before failing (no partial transfers),
the Summary's totalBytes — the stats tracker's cumulative total — equals
the sum of bytesTransferred across all DownloadResults of the run (a
pre-existing file is counted as a success with 0 bytes on both sides). -/
theorem summary_bytes_eq_results (net : Nat → Nat → AttemptOutcome) (s e : Nat) (p : String)
    (fs0 : FS) (sum : Summary) (rs : List DownloadResult)
    (hnet : ∀ idx i cs er, net idx i = AttemptOutcome.transportFail cs er → cs.sum = 0)
    (hnet2 : ∀ idx i cs er, net idx i = AttemptOutcome.diskFail cs er → cs.sum = 0)
    (h : (download_archives net s e p fs0).1 = some (sum, rs)) :
    sum.total_downloaded = (rs.map (·.bytesTransferred)).sum := by
  obtain ⟨hrs, hsum, -⟩ := download_archives_spec net s e p fs0 sum rs h
  rw [hsum]
  show (run_items net p ((generate_urls s e).map Prod.fst) 0
      ⟨fs0, DownloadStats.init, 0⟩).2.stats.bytes_downloaded =
    (rs.map (·.bytesTransferred)).sum
  rw [run_items_bytes net p hnet hnet2, ← hrs]
  simp [DownloadStats.init]

/-- C9 counterexample: a single item whose first attempt streams a 100-byte
chunk and then hits a mid-stream transport error; every later attempt fails
too.  No existence short-circuit occurs (so short-circuits contribute 0
bytes), the item's DownloadResult reports bytesTransferred = 0, yet the
stats tracker's total — the Summary's totalBytes — is 100: the claimed
equality 100 = 0 is false. -/
theorem summary_bytes_mismatch :
    ((download_archives
        (fun _ j => if j = 0 then AttemptOutcome.transportFail [100] "reset"
          else AttemptOutcome.noResponse "reset")
        0 0 "work/archives" ⟨[], []⟩).1.map
      (fun x => (x.1.total_downloaded, (x.2.map (·.bytesTransferred)).sum))) =
      some (100, 0) ∧ (100 : Nat) ≠ 0 := by
  constructor
  · decide
  · decide

/-- C9 witness: a one-item run transferring a single 5-byte chunk. -/
theorem summary_bytes_eq_results_witness :
    (⟨1, 1, 0, 5⟩ : Summary).total_downloaded =
      (([⟨"https://data.gharchive.org/1970-01-01-0.json.gz", true,
          "Downloaded: 1970-01-01-0.json.gz", 5⟩] : List DownloadResult).map
        (·.bytesTransferred)).sum :=
  summary_bytes_eq_results (fun _ _ => AttemptOutcome.complete [5]) 0 0 "work/archives"
    ⟨[], []⟩ ⟨1, 1, 0, 5⟩
    [⟨"https://data.gharchive.org/1970-01-01-0.json.gz", true,
      "Downloaded: 1970-01-01-0.json.gz", 5⟩]
    (fun _ _ cs er hc => nomatch hc) (fun _ _ cs er hc => nomatch hc) (by decide)

/-- C1 (amended): running `download_archives` twice over the same range and
output directory, when every item of the first run reports success (so
every target file is on disk afterwards), makes the second run — executed
on the filesystem the first run left behind — short-circuit every item:
each second-run DownloadResult is a success with bytesTransferred = 0, its
successCount equals totalItems, its failCount is 0, its totalBytes is 0,
and the second run's stats tracker never receives a byte (it stays in its
freshly constructed state). -/
theorem second_run_idempotent (net1 net2 : Nat → Nat → AttemptOutcome) (s e : Nat)
    (p : String) (fs0 : FS) (hse : s ≤ e)
    (sum1 : Summary) (rs1 : List DownloadResult)
    (h1 : (download_archives net1 s e p fs0).1 = some (sum1, rs1))
    (hok : ∀ r ∈ rs1, r.success = true)
    (sum2 : Summary) (rs2 : List DownloadResult)
    (h2 : (download_archives net2 s e p (download_archives net1 s e p fs0).2.fs).1 =
      some (sum2, rs2)) :
    (∀ r ∈ rs2, r.success = true ∧ r.bytesTransferred = 0) ∧
    sum2.successful = sum2.totalItems ∧ sum2.failed = 0 ∧ sum2.total_downloaded = 0 ∧
    (download_archives net2 s e p (download_archives net1 s e p fs0).2.fs).2.stats =
      DownloadStats.init := by
  obtain ⟨hrs1, hsum1, heff1⟩ := download_archives_spec net1 s e p fs0 sum1 rs1 h1
  obtain ⟨hrs2, hsum2, heff2⟩ :=
    download_archives_spec net2 s e p (download_archives net1 s e p fs0).2.fs sum2 rs2 h2
  have hfiles : ∀ u ∈ (generate_urls s e).map Prod.fst,
      (p ++ "/" ++ basename u) ∈
        (run_items net1 p ((generate_urls s e).map Prod.fst) 0
          ⟨fs0, DownloadStats.init, 0⟩).2.fs.files := by
    apply run_items_success_files
    intro r hr
    apply hok r
    rw [hrs1]
    exact hr
  have hskip := run_items_all_skip net2 p ((generate_urls s e).map Prod.fst) 0
    ⟨(download_archives net1 s e p fs0).2.fs, DownloadStats.init, 0⟩
    (by
      intro u hu
      show (p ++ "/" ++ basename u) ∈ (download_archives net1 s e p fs0).2.fs.files
      rw [heff1]
      exact hfiles u hu)
  rw [hskip] at hrs2
  refine ⟨?_, ?_, ?_, ?_, ?_⟩
  · intro r hr
    rw [hrs2] at hr
    obtain ⟨u, hu, rfl⟩ := List.mem_map.mp hr
    exact ⟨rfl, rfl⟩
  · rw [hsum2]
    show rs2.countP (·.success) = (generate_urls s e).length
    rw [hrs2]
    rw [List.countP_eq_length_filter]
    have hall : (((generate_urls s e).map Prod.fst).map
        (fun u => (⟨u, true, "Already exists: " ++ basename u, 0⟩ : DownloadResult))).filter
          (·.success) =
        ((generate_urls s e).map Prod.fst).map
          (fun u => (⟨u, true, "Already exists: " ++ basename u, 0⟩ : DownloadResult)) := by
      apply List.filter_eq_self.mpr
      intro r hr
      obtain ⟨u, hu, rfl⟩ := List.mem_map.mp hr
      rfl
    rw [hall]
    simp
  · rw [hsum2]
    show rs2.countP (fun r => !r.success) = 0
    rw [hrs2, List.countP_eq_length_filter]
    have hnone : (((generate_urls s e).map Prod.fst).map
        (fun u => (⟨u, true, "Already exists: " ++ basename u, 0⟩ : DownloadResult))).filter
          (fun r => !r.success) = [] := by
      apply List.filter_eq_nil_iff.mpr
      intro r hr
      obtain ⟨u, hu, rfl⟩ := List.mem_map.mp hr
      simp
    rw [hnone]
    rfl
  · rw [hsum2]
    show (run_items net2 p ((generate_urls s e).map Prod.fst) 0
      ⟨(download_archives net1 s e p fs0).2.fs, DownloadStats.init, 0⟩).2.stats.bytes_downloaded
        = 0
    rw [hskip]
    rfl
  · rw [heff2, hskip]

/-- C1 counterexample: with a network that is down for both runs, the first
run's single item fails and leaves no file, so the second run retries and
fails again: its Summary reports successCount = 0 and failCount = 1 out of
totalItems = 1, refuting "the second run reports every item as a success"
for arbitrary runs. -/
theorem second_run_not_idempotent :
    ((download_archives (fun _ _ => AttemptOutcome.noResponse "down") 0 0 "work/archives"
        (download_archives (fun _ _ => AttemptOutcome.noResponse "down") 0 0 "work/archives"
          ⟨[], []⟩).2.fs).1.map
      (fun x => (x.1.successful, x.1.failed, x.1.totalItems))) = some (0, 1, 1) := by
  decide

/-- C1 witness: a successful one-item first run makes the second run a pure
skip run. -/
theorem second_run_idempotent_witness :
    (⟨1, 1, 0, 0⟩ : Summary).successful = (⟨1, 1, 0, 0⟩ : Summary).totalItems ∧
    (⟨1, 1, 0, 0⟩ : Summary).failed = 0 ∧
    (⟨1, 1, 0, 0⟩ : Summary).total_downloaded = 0 ∧
    (download_archives (fun _ _ => AttemptOutcome.complete [5]) 0 0 "work/archives"
      (download_archives (fun _ _ => AttemptOutcome.complete [5]) 0 0 "work/archives"
        ⟨[], []⟩).2.fs).2.stats = DownloadStats.init :=
  (second_run_idempotent (fun _ _ => AttemptOutcome.complete [5])
    (fun _ _ => AttemptOutcome.complete [5]) 0 0 "work/archives" ⟨[], []⟩ (by decide)
    ⟨1, 1, 0, 5⟩
    [⟨"https://data.gharchive.org/1970-01-01-0.json.gz", true,
      "Downloaded: 1970-01-01-0.json.gz", 5⟩] (by decide) (by decide)
    ⟨1, 1, 0, 0⟩
    [⟨"https://data.gharchive.org/1970-01-01-0.json.gz", true,
      "Already exists: 1970-01-01-0.json.gz", 0⟩] (by decide)).2
